import Mathlib

set_option maxRecDepth 8000

/-
Verification of the soybean crush-spread backtest engine
(src/get_data.py: `calculate_hurst`, `backtest_crush_spread`).

Modelling conventions, used throughout:

* pandas/numpy float values are modelled as exact rationals (`ℚ`);
  a missing value (numpy `NaN`) is modelled as `Option.none`.  Elementwise
  pandas arithmetic propagates NaN, and a comparison against NaN is `False`;
  the `opt*` operations and the `gtB`/`ltB` tests below mirror that.
* the square root applied by `pandas.Series.rolling(...).std()` to the exact
  rational sample variance is irrational in general, so the pipeline is
  parametrised by the square-root function `s : ℚ → ℚ` it uses.  Every general
  theorem below holds for an arbitrary `s` (hence in particular for the true
  square root); concrete evaluations instantiate `s := ratSqrt`, an exact
  integer-square-root construction, and use only inputs whose rolling
  variances are perfect squares, where `ratSqrt` agrees with the true root.
* `DataFrame` rows are `(date, spread)` pairs with an integer date key;
  `backtest_crush_spread` re-indexes by `Date` and sorts (source lines
  134-135), after which only the ordered spread column matters.
-/

namespace SoybeanCrush

/-! ### NaN-propagating scalar arithmetic (pandas elementwise semantics) -/

/-- Elementwise addition; NaN (`none`) propagates, as in pandas. -/
def optAdd : Option ℚ → Option ℚ → Option ℚ
  | some a, some b => some (a + b)
  | _, _ => none

/-- Elementwise subtraction; NaN propagates. -/
def optSub : Option ℚ → Option ℚ → Option ℚ
  | some a, some b => some (a - b)
  | _, _ => none

/-- Elementwise multiplication; NaN propagates. -/
def optMul : Option ℚ → Option ℚ → Option ℚ
  | some a, some b => some (a * b)
  | _, _ => none

/-- Elementwise division; NaN propagates.  A zero divisor yields `none`:
in the pipeline the divisor is the rolling standard deviation, which is zero
exactly on a constant window, where the numerator `x - mean` is zero as well,
so the float result is `0.0/0.0 = NaN`, i.e. `none`.  (A nonzero numerator
over a zero divisor, which floats would send to `±inf`, is unreachable
there.) -/
def optDiv : Option ℚ → Option ℚ → Option ℚ
  | some a, some b => if b = 0 then none else some (a / b)
  | _, _ => none

/-- Model of `np.sign` on a non-NaN float: `1`, `-1` or `0`. -/
def qsign (a : ℚ) : ℚ :=
  if 0 < a then 1 else if a < 0 then -1 else 0

/-- The boolean mask `z > c` of source line 181: a NaN entry compares `False`. -/
def gtB (z : Option ℚ) (c : ℚ) : Bool :=
  match z with
  | some v => decide (c < v)
  | none => false

/-- The boolean mask `z < c` of source line 182: a NaN entry compares `False`. -/
def ltB (z : Option ℚ) (c : ℚ) : Bool :=
  match z with
  | some v => decide (v < c)
  | none => false

/-- The zero-crossing mask of source lines 187-188:
`(np.sign(z) * np.sign(z).shift(1)) < 0`.  `np.sign NaN = NaN`, a product with
NaN is NaN, and `NaN < 0` is `False`, so the mask is `False` unless both the
current and the previous z-score are defined. -/
def crossB (zi zp : Option ℚ) : Bool :=
  match zi, zp with
  | some a, some b => decide (qsign a * qsign b < 0)
  | _, _ => false

/-! ### An executable square root, exact on perfect squares

Used only to instantiate the square-root parameter `s` in concrete
evaluations; all of those evaluate it on perfect squares (or on `0`),
where it coincides with the true square root. -/

/-- Largest `k ≤ fuel` with `k * k ≤ n`, by downward search. -/
def natSqrtGo (n : ℕ) : ℕ → ℕ
  | 0 => 0
  | k + 1 => if (k + 1) * (k + 1) ≤ n then k + 1 else natSqrtGo n k

/-- Integer square root (floor), exact on perfect squares. -/
def natSqrt (n : ℕ) : ℕ := natSqrtGo n n

/-- Rational square root model: exact whenever the numerator and denominator
are perfect squares, which covers every concrete use in this file. -/
def ratSqrt (q : ℚ) : ℚ := ((natSqrt q.num.toNat : ℤ) : ℚ) / ((natSqrt q.den : ℕ) : ℚ)

/-! ### Rolling statistics (source lines 166-170)

`data['mean'] = data[spread].rolling(window=lookback).mean()`
`data['std']  = data[spread].rolling(window=lookback).std()`   (sample, ddof=1)
`data['z_score'] = (data[spread] - data['mean']) / data['std']`

A rolling statistic is NaN until the window is full (`i < lookback - 1`);
the sample standard deviation is additionally NaN for `lookback = 1`
(zero degrees of freedom).  `lookback = 0` makes pandas raise; it is modelled
as everywhere-undefined and no theorem below relies on that case. -/

/-- The length-`w` window of observations ending at index `i`. -/
def windowL (xs : List ℚ) (w i : ℕ) : List ℚ := (xs.take (i + 1)).drop (i + 1 - w)

/-- Rolling mean at index `i` (source line 166). -/
def meanAt (xs : List ℚ) (w i : ℕ) : Option ℚ :=
  if 1 ≤ w ∧ w ≤ i + 1 ∧ i < xs.length then
    some ((windowL xs w i).sum / (w : ℚ))
  else none

/-- Rolling sample variance (ddof = 1) at index `i`; the rolling `std` of
source line 167 is its square root. -/
def varAt (xs : List ℚ) (w i : ℕ) : Option ℚ :=
  if 2 ≤ w ∧ w ≤ i + 1 ∧ i < xs.length then
    some (((windowL xs w i).map
        (fun x => (x - (windowL xs w i).sum / (w : ℚ)) * (x - (windowL xs w i).sum / (w : ℚ)))).sum
      / ((w : ℚ) - 1))
  else none

/-- Rolling sample standard deviation at index `i` (source line 167), as the
injected square root `s` of the exact rational variance. -/
def stdAt (s : ℚ → ℚ) (xs : List ℚ) (w i : ℕ) : Option ℚ :=
  (varAt xs w i).map s

/-- Z-score at index `i` (source line 170). -/
def zAt (s : ℚ → ℚ) (xs : List ℚ) (w i : ℕ) : Option ℚ :=
  optDiv (optSub xs[i]? (meanAt xs w i)) (stdAt s xs w i)

/-- The shifted z-score `z.shift(1)` read at index `i` (NaN at `i = 0`). -/
def zPrev (s : ℚ → ℚ) (xs : List ℚ) (w i : ℕ) : Option ℚ :=
  if i = 0 then none else zAt s xs w (i - 1)

/-! ### Raw signal (source lines 178-189)

```
data['signal'] = np.nan
data.loc[data['z_score'] > entry_z, 'signal'] = -1   # Short
data.loc[data['z_score'] < -entry_z, 'signal'] = 1   # Long
z_sign = np.sign(data['z_score'])
cross_zero = (z_sign * z_sign.shift(1)) < 0
data.loc[cross_zero, 'signal'] = 0                   # Exit
```

Four sequential writes to the same column: the value at an index is the last
write whose mask holds there.  The nested `if` below reads the masks in
reverse write order, which yields exactly that last-write-wins value: the
exit mask (written last, line 189) overrides both entries, and the long entry
(line 182) overrides the short entry (line 181). -/

/-- Raw signal at index `i`: result of the four masked writes above. -/
def signalAt (s : ℚ → ℚ) (xs : List ℚ) (w : ℕ) (ez : ℚ) (i : ℕ) : Option ℚ :=
  if crossB (zAt s xs w i) (zPrev s xs w i) then some 0
  else if ltB (zAt s xs w i) (-ez) then some 1
  else if gtB (zAt s xs w i) ez then some (-1)
  else none

/-! ### Held position (source line 192)

`data['position'] = data['signal'].ffill().fillna(0)`: carry the last defined
signal forward, and `0` before any signal has occurred. -/

/-- Held position at index `i`. -/
def positionAt (s : ℚ → ℚ) (xs : List ℚ) (w : ℕ) (ez : ℚ) : ℕ → ℚ
  | 0 => (signalAt s xs w ez 0).getD 0
  | i + 1 => (signalAt s xs w ez (i + 1)).getD (positionAt s xs w ez i)

/-! ### PnL and costs (source lines 199-214) -/

/-- Source line 199, `data['price_change'] = data[spread].diff()`: NaN at
index 0, else the one-period difference. -/
def pcAt (xs : List ℚ) (i : ℕ) : Option ℚ :=
  if i = 0 then none else optSub xs[i]? xs[i - 1]?

/-- Source line 203, `data['gross_pnl'] = data['position'].shift(1) * data['price_change']`: yesterday's position times today's price change. -/
def grossAt (s : ℚ → ℚ) (xs : List ℚ) (w : ℕ) (ez : ℚ) (i : ℕ) : Option ℚ :=
  optMul (if i = 0 then none else some (positionAt s xs w ez (i - 1))) (pcAt xs i)

/-- Source line 207, `data['trades'] = data['position'].diff().abs()`:
NaN at index 0, else the absolute change in position. -/
def tradesAt (s : ℚ → ℚ) (xs : List ℚ) (w : ℕ) (ez : ℚ) (i : ℕ) : Option ℚ :=
  if i = 0 then none
  else some |positionAt s xs w ez i - positionAt s xs w ez (i - 1)|

/-- Source line 210, `data['costs'] = data['trades'] * cost_per_trade`. -/
def costsAt (s : ℚ → ℚ) (xs : List ℚ) (w : ℕ) (ez cpt : ℚ) (i : ℕ) : Option ℚ :=
  (tradesAt s xs w ez i).map (fun t => t * cpt)

/-- Source line 213, `data['net_pnl'] = data['gross_pnl'] - data['costs']`. -/
def netAt (s : ℚ → ℚ) (xs : List ℚ) (w : ℕ) (ez cpt : ℚ) (i : ℕ) : Option ℚ :=
  optSub (grossAt s xs w ez i) (costsAt s xs w ez cpt i)

/-- Running sum of the defined net-PnL entries through index `i`
(pandas `cumsum` skips NaN entries instead of propagating them). -/
def sumNet (s : ℚ → ℚ) (xs : List ℚ) (w : ℕ) (ez cpt : ℚ) : ℕ → ℚ
  | 0 => (netAt s xs w ez cpt 0).getD 0
  | i + 1 => sumNet s xs w ez cpt i + (netAt s xs w ez cpt (i + 1)).getD 0

/-- Source line 214, `data['cumulative_pnl'] = data['net_pnl'].cumsum()`:
NaN exactly where `net_pnl` is NaN, else the running sum of the defined
entries so far. -/
def cumAt (s : ℚ → ℚ) (xs : List ℚ) (w : ℕ) (ez cpt : ℚ) (i : ℕ) : Option ℚ :=
  (netAt s xs w ez cpt i).map (fun _ => sumNet s xs w ez cpt i)

/-! ### Hurst exponent (source lines 110-120)

```
lags = range(2, 100)
tau = [np.sqrt(np.std(np.subtract(series[lag:], series[:-lag]))) for lag in lags]
poly = np.polyfit(np.log(lags), np.log(tau), 1)
return poly[0] * 2.0
```

`np.std` here is the population (ddof = 0) standard deviation, and
`tau_lag = (popVar)^(1/4)` with `popVar` the exact rational population
variance of the lag-differenced series, so the model tracks `tau_lag^4`
exactly: `tau_lag` is NaN iff the differenced series is empty
(`np.std` of an empty slice is NaN), and `tau_lag = 0` iff `tau_lag^4 = 0`.
`np.log` is finite on `tau_lag` iff `tau_lag^4 > 0` (`log 0 = -inf`,
`log NaN = NaN`), and `np.polyfit` raises `numpy.linalg.LinAlgError` as soon
as its inputs contain a NaN or an infinity, and succeeds on the 98 finite
points otherwise.  The fitted slope itself is transcendental in the data, so
on success the model returns the exact fourth powers of the `tau` list, which
determine it; no claim concerns the numeric exponent. -/

/-- Population (ddof = 0) variance of a list; `none` on the empty list,
where `np.std` is NaN.  This is the fourth power of the `tau` value the
source takes a logarithm of. -/
def popVar (l : List ℚ) : Option ℚ :=
  match l with
  | [] => none
  | _ => some (((l.map
      (fun x => (x - l.sum / (l.length : ℚ)) * (x - l.sum / (l.length : ℚ)))).sum)
    / (l.length : ℚ))

/-- Model of `np.subtract(series[lag:], series[:-lag])`: elementwise lag-difference. -/
def lagDiffs (xs : List ℚ) (lag : ℕ) : List ℚ :=
  List.zipWith (fun a b => a - b) (xs.drop lag) xs

/-- Value of `tau_lag^4`: the exact population variance of the lag-differenced series. -/
def tauQuad (xs : List ℚ) (lag : ℕ) : Option ℚ := popVar (lagDiffs xs lag)

/-- Whether `np.log` applied to `tau_lag` is finite: `tau_lag` defined and
positive, i.e. `tau_lag^4` defined and positive. -/
def tauPos : Option ℚ → Bool
  | some q => decide (0 < q)
  | none => false

/-- Source line 117, `lags = range(2, 100)`. -/
def hurstLags : List ℕ := List.range' 2 98

/-- Success condition of the `np.polyfit` call (source line 119): every
`log tau_lag` is finite. -/
def hurstOkB (xs : List ℚ) : Bool := (hurstLags.map (tauQuad xs)).all tauPos

/-- Errors a call into the backtest can surface.  The source defines no error
classes of its own; `insufficientDataError` and `invalidParameterError` are
the classes named by the specification and exist in the model only so that
the specification's sentences about them are expressible — no definition in
this file ever constructs them. -/
inductive PyError where
  /-- A `ValueError` raised inside the external `statsmodels.adfuller` call. -/
  | statsmodelsValueError : PyError
  /-- A `numpy.linalg.LinAlgError` raised by `np.polyfit` on NaN/infinite input. -/
  | numpyLinAlgError : PyError
  /-- The spec's `InsufficientDataError`; never constructed by the model. -/
  | insufficientDataError : PyError
  /-- The spec's `InvalidParameterError`; never constructed by the model. -/
  | invalidParameterError : PyError
deriving DecidableEq

/-- Model of `calculate_hurst` (source lines 110-120): raises `LinAlgError` out of
`np.polyfit` iff some `log tau_lag` is NaN or infinite; otherwise returns the
data of the log-log regression, represented by the exact `tau^4` list. -/
def calculate_hurst (xs : List ℚ) : Except PyError (List (Option ℚ)) :=
  if hurstOkB xs then Except.ok (hurstLags.map (tauQuad xs))
  else Except.error PyError.numpyLinAlgError

/-! ### The augmented frame (the DataFrame `data` that line 265 returns) -/

/-- The per-timestamp columns `backtest_crush_spread` adds to its working
DataFrame `data` (source lines 166-214); the value returned at line 265. -/
structure BacktestFrame where
  spread : List ℚ
  mean : List (Option ℚ)
  std : List (Option ℚ)
  z_score : List (Option ℚ)
  signal : List (Option ℚ)
  pos : List ℚ
  price_change : List (Option ℚ)
  gross_pnl : List (Option ℚ)
  trades : List (Option ℚ)
  costs : List (Option ℚ)
  net_pnl : List (Option ℚ)
  cumulative_pnl : List (Option ℚ)

/-- Build the augmented frame over the (already sorted) spread series `xs`. -/
def mkFrame (s : ℚ → ℚ) (xs : List ℚ) (w : ℕ) (ez cpt : ℚ) : BacktestFrame :=
  let n := xs.length
  { spread := xs
    mean := (List.range n).map (meanAt xs w)
    std := (List.range n).map (stdAt s xs w)
    z_score := (List.range n).map (zAt s xs w)
    signal := (List.range n).map (signalAt s xs w ez)
    pos := (List.range n).map (positionAt s xs w ez)
    price_change := (List.range n).map (pcAt xs)
    gross_pnl := (List.range n).map (grossAt s xs w ez)
    trades := (List.range n).map (tradesAt s xs w ez)
    costs := (List.range n).map (costsAt s xs w ez cpt)
    net_pnl := (List.range n).map (netAt s xs w ez cpt)
    cumulative_pnl := (List.range n).map (cumAt s xs w ez cpt) }

/-! ### Performance metrics (source lines 221-238)

These four quantities are computed inside `backtest_crush_spread` and
printed (lines 235-238); they are not part of the function's return value. -/

/-- Model of `Series.mean()` with pandas' default NaN skipping; NaN when no entry is
defined. -/
def meanSkip (l : List (Option ℚ)) : Option ℚ :=
  match l.filterMap id with
  | [] => none
  | v => some (v.sum / (v.length : ℚ))

/-- Sample (ddof = 1) variance of the defined entries, pandas
`Series.std()` squared; NaN with fewer than two defined entries. -/
def sampleVarSkip (l : List (Option ℚ)) : Option ℚ :=
  match l.filterMap id with
  | [] => none
  | [_] => none
  | v => some (((v.map
      (fun x => (x - v.sum / (v.length : ℚ)) * (x - v.sum / (v.length : ℚ)))).sum)
    / ((v.length : ℚ) - 1))

/-- Model of `Series.cummax()`: NaN where the input is NaN; elsewhere the running
maximum of the defined entries so far. -/
def cummaxSkip (acc : Option ℚ) : List (Option ℚ) → List (Option ℚ)
  | [] => []
  | none :: t => none :: cummaxSkip acc t
  | some v :: t =>
    let m := match acc with
      | some a => max a v
      | none => v
    some m :: cummaxSkip (some m) t

/-- Model of `Series.min()` with NaN skipping; NaN when nothing is defined. -/
def minSkip (l : List (Option ℚ)) : Option ℚ :=
  match l.filterMap id with
  | [] => none
  | x :: t => some (t.foldl min x)

/-- The summary record of the specification (`total_return`, Sharpe-like
ratio, max drawdown, trade count).  The Sharpe field is named `sharpe` as in
the source local variable (line 228). -/
structure PerformanceSummary where
  total_return : Option ℚ
  sharpe : Option ℚ
  max_drawdown : Option ℚ
  total_trades : ℚ

/-- The metrics computed (and printed) at source lines 221-238 from the
completed frame.  The Sharpe branch follows line 228 exactly: when
`daily_std` is NaN, the float test `daily_std != 0` is `True` and the
computed ratio is NaN (`none`); `daily_std == 0` yields the literal `0`. -/
def performanceSummary (s : ℚ → ℚ) (f : BacktestFrame) : PerformanceSummary :=
  let dm := meanSkip f.net_pnl
  let dstd := (sampleVarSkip f.net_pnl).map s
  { total_return := f.cumulative_pnl.getLast?.join
    sharpe :=
      match dstd with
      | some v => if v ≠ 0 then dm.map (fun m => m / v * s 252) else some 0
      | none => none
    max_drawdown :=
      minSkip (List.zipWith optSub f.cumulative_pnl (cummaxSkip none f.cumulative_pnl))
    total_trades := (f.trades.filterMap id).sum }

/-! ### The function boundary of `backtest_crush_spread` -/

/-- The sole Python object `backtest_crush_spread` hands back to its caller.
The source's only return statement is `return data` (line 265), which builds
`frameOnly`; the `withSummary` shape — the pair of frame and summary that the
specification's interface description promises — exists in the model solely
so that statements about the return shape are expressible.  No definition in
this file constructs it. -/
inductive ReturnVal where
  | frameOnly (f : BacktestFrame) : ReturnVal
  | withSummary (f : BacktestFrame) (p : PerformanceSummary) : ReturnVal

/-- Whether a returned object carries a summary component. -/
def ReturnVal.hasSummaryB : ReturnVal → Bool
  | ReturnVal.frameOnly _ => false
  | ReturnVal.withSummary _ _ => true

/-- Insert a `(date, spread)` row into a date-sorted list. -/
def insertByDate (p : ℤ × ℚ) : List (ℤ × ℚ) → List (ℤ × ℚ)
  | [] => [p]
  | q :: t => if p.1 ≤ q.1 then p :: q :: t else q :: insertByDate p t

/-- Source lines 134-135, `data.set_index('Date'); data.sort_index(inplace=True)`: order the rows by the date key. -/
def sortByDate (l : List (ℤ × ℚ)) : List (ℤ × ℚ) := l.foldr insertByDate []

/-- The spread column of the sorted working frame. -/
def spreadOf (df : List (ℤ × ℚ)) : List ℚ := (sortByDate df).map Prod.snd

/-- Model of `backtest_crush_spread(df, ...)` (source lines 122-265).
`adfOk` is the observable control-flow of the external
`statsmodels.adfuller` call at line 143 — external library code, not part of
this repository — `true` when it returns (its numeric result is only
printed, lines 144-151, and never influences the rest of the run), `false`
when it raises its `ValueError`.  The Hurst diagnostic at line 154 likewise
only prints on success, but an exception from either diagnostic propagates
and aborts the call.  The matplotlib section (lines 243-263) draws from the
completed columns and computes nothing new; it is outside the modelled
contract.  The source contains no parameter-validation code: no path below
constructs `invalidParameterError` or `insufficientDataError`. -/
def runE (adfOk : List ℚ → Bool) (s : ℚ → ℚ) (df : List (ℤ × ℚ)) (w : ℕ)
    (ez cpt : ℚ) : Except PyError ReturnVal :=
  let xs := spreadOf df
  if adfOk xs = false then Except.error PyError.statsmodelsValueError
  else
    match calculate_hurst xs with
    | Except.error e => Except.error e
    | Except.ok _ => Except.ok (ReturnVal.frameOnly (mkFrame s xs w ez cpt))

/-- Whether a call completed without an exception. -/
def exceptOkB : Except PyError ReturnVal → Bool
  | Except.ok _ => true
  | Except.error _ => false

/-- The exception surfaced by a call, if any. -/
def errOf : Except PyError ReturnVal → Option PyError
  | Except.ok _ => none
  | Except.error e => some e

/-- Whether a call completed and returned an object with no summary
component. -/
def okNoSummaryB : Except PyError ReturnVal → Bool
  | Except.ok r => !r.hasSummaryB
  | Except.error _ => false

/-- The call together with the caller's `df` object as it stands after the
call returns.  Line 134 (`data = df.copy().set_index('Date')`) allocates a
fresh object and only reads `df`; line 135 (`sort_index(inplace=True)`) and
every column write in lines 166-214 mutate that copy `data`, never `df` —
so the `df` cell is passed through unchanged. -/
def runEnv (adfOk : List ℚ → Bool) (s : ℚ → ℚ) (df : List (ℤ × ℚ)) (w : ℕ)
    (ez cpt : ℚ) : (List (ℤ × ℚ)) × Except PyError ReturnVal :=
  (df, runE adfOk s df w ez cpt)

/-! ### Concrete data used by witnesses and counterexamples -/

/-- Model of the observable behaviour of the external `statsmodels.adfuller`
call at the concrete inputs used in this file: it raises on very short
series (it raises a `ValueError` on the empty and the 3-point input used
below) and returns normally on the 101-point non-degenerate series used
below.  External dependency, not repository code. -/
def adfOkModel (xs : List ℚ) : Bool := decide (20 ≤ xs.length)

/-- A 5-point spread series.  With `lookback = 3` every full window has a
perfect-square sample variance (1, 1 and 49), so `ratSqrt` reproduces the
exact rolling standard deviations; at index 4 the z-score jumps from
`-1` (index 3) to `8/7`, making a short entry and a zero-crossing exit fire
together. -/
def qs5 : List ℚ := [-1, 0, 1, -1, 12]

/-- Series `qs5` extended past index 4; used to check that values at index 4 ignore
data at later indices. -/
def qs5ext : List ℚ := [-1, 0, 1, -1, 12, 100, -100]

/-- A 101-row input frame whose dates are in strictly decreasing order (not
time-ordered) and whose spread values are `i^2` for date `i`: after sorting,
every lag-differenced series `(i+L)^2 - i^2 = L^2 + 2*L*i` is non-constant,
so every `tau` is defined and positive and the Hurst diagnostic passes. -/
def df101 : List (ℤ × ℚ) :=
  (List.range 101).reverse.map (fun i => ((i : ℤ), (i : ℚ) * (i : ℚ)))

/-- A 3-row input frame, far too short for the ADF regression. -/
def df3 : List (ℤ × ℚ) := [(0, 1), (1, 2), (2, 3)]

/-- The most recent defined signal at or before `i` — the specification's
own description of the held position (spec section 4.2 step 4), stated
independently of the source's `ffill` idiom, for comparison with it. -/
def lastSignal (sig : ℕ → Option ℚ) : ℕ → Option ℚ
  | 0 => sig 0
  | i + 1 =>
    match sig (i + 1) with
    | some v => some v
    | none => lastSignal sig i

end SoybeanCrush

/- Batteries marks the rational field operations `[irreducible]`, which
blocks the evaluation of concrete instances below; restore the default
reducibility for this file. -/
attribute [local semireducible] Rat.add Rat.sub Rat.mul Rat.inv

namespace SoybeanCrush

/-! ### Helper lemmas -/

theorem optDiv_zero_right (x : Option ℚ) : optDiv x (some 0) = none := by
  cases x <;> simp [optDiv]

theorem crossB_none_left (zp : Option ℚ) : crossB none zp = false := by
  cases zp <;> rfl

theorem signalAt_values (s : ℚ → ℚ) (xs : List ℚ) (w : ℕ) (ez : ℚ) (i : ℕ) :
    signalAt s xs w ez i = none ∨ signalAt s xs w ez i = some 0 ∨
      signalAt s xs w ez i = some 1 ∨ signalAt s xs w ez i = some (-1) := by
  unfold signalAt
  by_cases h1 : crossB (zAt s xs w i) (zPrev s xs w i) = true
  · simp [h1]
  · by_cases h2 : ltB (zAt s xs w i) (-ez) = true
    · simp [h1, h2]
    · by_cases h3 : gtB (zAt s xs w i) ez = true
      · simp [h1, h2, h3]
      · simp [h1, h2, h3]

theorem positionAt_mem (s : ℚ → ℚ) (xs : List ℚ) (w : ℕ) (ez : ℚ) (i : ℕ) :
    positionAt s xs w ez i = -1 ∨ positionAt s xs w ez i = 0 ∨
      positionAt s xs w ez i = 1 := by
  induction i with
  | zero =>
    rcases signalAt_values s xs w ez 0 with h | h | h | h <;>
      simp [positionAt, h]
  | succ i ih =>
    rcases signalAt_values s xs w ez (i + 1) with h | h | h | h <;>
      simp [positionAt, h, ih]

/-! ### C1: entry-versus-exit precedence at a coincident index -/

/-- C1 (counterexample): on the series `[-1, 0, 1, -1, 12]` with
`lookback = 3` and `entry_z = 1`, at index 4 the short-entry condition
(`z = 8/7 > 1`) and the zero-crossing exit condition
(`sign(8/7) * sign(-1) < 0`) both fire, yet the recorded raw signal is `0`:
the exit write (source line 189) runs after the entry writes (lines 181-182)
and overwrites them, so the claim that the signal "is -1 or +1, never 0"
fails. -/
theorem C1_counterexample :
    gtB (zAt ratSqrt qs5 3 4) 1 = true ∧
      crossB (zAt ratSqrt qs5 3 4) (zPrev ratSqrt qs5 3 4) = true ∧
      signalAt ratSqrt qs5 3 1 4 = some 0 := by
  decide

/-- C1 (amended): when an entry condition (`z[i] > entry_z` or
`z[i] < -entry_z`) and the zero-crossing exit condition both fire at the same
index, the exit takes precedence: the recorded raw signal is `0`, because the
exit assignment of source line 189 is the last write to the signal column. -/
theorem C1_exit_precedence (s : ℚ → ℚ) (xs : List ℚ) (w : ℕ) (ez : ℚ) (i : ℕ)
    (_hentry : gtB (zAt s xs w i) ez = true ∨ ltB (zAt s xs w i) (-ez) = true)
    (hcross : crossB (zAt s xs w i) (zPrev s xs w i) = true) :
    signalAt s xs w ez i = some 0 := by
  unfold signalAt
  rw [if_pos hcross]

/-- C1 (witness): the amended precedence theorem applied at the concrete
coincident firing of `C1_counterexample`. -/
theorem C1_witness : signalAt ratSqrt qs5 3 1 4 = some 0 :=
  C1_exit_precedence ratSqrt qs5 3 1 4 (Or.inl (by decide)) (by decide)

/-! ### C6: held position = forward-filled signal, in the domain -/

/-- C6: for every index `i`, the held position is the most recent defined raw
signal at an index `≤ i` (`lastSignal`), defaulting to `0` when no signal has
occurred yet, and it always lies in `{-1, 0, 1}`. -/
theorem C6_position_ffill_and_domain (s : ℚ → ℚ) (xs : List ℚ) (w : ℕ)
    (ez : ℚ) (i : ℕ) :
    positionAt s xs w ez i = (lastSignal (signalAt s xs w ez) i).getD 0 ∧
      (positionAt s xs w ez i = -1 ∨ positionAt s xs w ez i = 0 ∨
        positionAt s xs w ez i = 1) := by
  refine ⟨?_, positionAt_mem s xs w ez i⟩
  induction i with
  | zero => rfl
  | succ i ih =>
    cases h : signalAt s xs w ez (i + 1) with
    | none => simp [positionAt, lastSignal, h, ih]
    | some v => simp [positionAt, lastSignal, h]

/-- C6 (witness): the forward-fill characterisation evaluated on the 5-point
series at index 3, where the last defined signal is the exit `0` fired at
index 3 itself. -/
theorem C6_witness :
    positionAt ratSqrt qs5 3 1 3 = (lastSignal (signalAt ratSqrt qs5 3 1) 3).getD 0 ∧
      (positionAt ratSqrt qs5 3 1 3 = -1 ∨ positionAt ratSqrt qs5 3 1 3 = 0 ∨
        positionAt ratSqrt qs5 3 1 3 = 1) :=
  C6_position_ffill_and_domain ratSqrt qs5 3 1 3

/-! ### C7: trades and costs -/

/-- C7 (counterexample): at index 0 the trades entry is NaN
(`position.diff()` has no predecessor there), not one of `0`, `1`, `2`, so
the claim's "for every index i ... lies in {0, 1, 2}" fails at `i = 0`. -/
theorem C7_counterexample :
    tradesAt ratSqrt qs5 3 1 0 ∉ ([some 0, some 1, some 2] : List (Option ℚ)) := by
  decide

/-- C7 (amended): for every index `i ≥ 1`,
`trades[i] = |position[i] - position[i-1]|` and lies in `{0, 1, 2}`
(`trades[0]` is undefined, since there is no prior position), and at every
index `cost[i] = trades[i] * cost_per_trade` exactly, with the NaN at index 0
propagating. -/
theorem C7_trades_and_costs (s : ℚ → ℚ) (xs : List ℚ) (w : ℕ) (ez cpt : ℚ)
    (i : ℕ) (h1 : 1 ≤ i) :
    tradesAt s xs w ez i =
        some |positionAt s xs w ez i - positionAt s xs w ez (i - 1)| ∧
      (tradesAt s xs w ez i = some 0 ∨ tradesAt s xs w ez i = some 1 ∨
        tradesAt s xs w ez i = some 2) ∧
      ∀ j, costsAt s xs w ez cpt j = (tradesAt s xs w ez j).map (fun t => t * cpt) := by
  have hi : i ≠ 0 := Nat.one_le_iff_ne_zero.mp h1
  refine ⟨by rw [tradesAt, if_neg hi], ?_, fun j => rfl⟩
  rw [tradesAt, if_neg hi]
  rcases positionAt_mem s xs w ez i with h | h | h <;>
    rcases positionAt_mem s xs w ez (i - 1) with g | g | g <;>
      rw [h, g] <;> norm_num

/-- C7 (witness): the amended theorem at index 1 of the 5-point series:
no position change there, hence zero trades and cost `0 * cpt`. -/
theorem C7_witness :
    tradesAt ratSqrt qs5 3 1 1 =
        some |positionAt ratSqrt qs5 3 1 1 - positionAt ratSqrt qs5 3 1 0| ∧
      (tradesAt ratSqrt qs5 3 1 1 = some 0 ∨ tradesAt ratSqrt qs5 3 1 1 = some 1 ∨
        tradesAt ratSqrt qs5 3 1 1 = some 2) ∧
      costsAt ratSqrt qs5 3 1 (2/100) 0 =
        (tradesAt ratSqrt qs5 3 1 0).map (fun t => t * (2/100)) :=
  ⟨(C7_trades_and_costs ratSqrt qs5 3 1 (2/100) 1 (by decide)).1,
   (C7_trades_and_costs ratSqrt qs5 3 1 (2/100) 1 (by decide)).2.1,
   (C7_trades_and_costs ratSqrt qs5 3 1 (2/100) 1 (by decide)).2.2 0⟩

/-! ### C9: zero rolling standard deviation -/

/-- C9: wherever the rolling standard deviation is zero, the z-score is
undefined (`none`, the model of the float NaN produced by `0.0/0.0` — no
division-by-zero exception is raised), no new raw signal is produced there,
and the held position is carried forward unchanged from the previous index
(which exists, since a defined rolling std forces `i ≥ 1`). -/
theorem C9_zero_std_no_signal (s : ℚ → ℚ) (xs : List ℚ) (w : ℕ) (ez : ℚ)
    (i : ℕ) (h : stdAt s xs w i = some 0) :
    zAt s xs w i = none ∧ signalAt s xs w ez i = none ∧ 1 ≤ i ∧
      positionAt s xs w ez i = positionAt s xs w ez (i - 1) := by
  have hz : zAt s xs w i = none := by
    unfold zAt
    rw [h, optDiv_zero_right]
  have hsig : signalAt s xs w ez i = none := by
    unfold signalAt
    rw [hz, crossB_none_left]
    simp [ltB, gtB]
  have hvar : ∃ v, varAt xs w i = some v := by
    rcases Option.map_eq_some'.mp h with ⟨v, hv, _⟩
    exact ⟨v, hv⟩
  have h1i : 1 ≤ i := by
    rcases hvar with ⟨v, hv⟩
    unfold varAt at hv
    split at hv
    · next hc => omega
    · exact absurd hv (by simp)
  refine ⟨hz, hsig, h1i, ?_⟩
  obtain ⟨k, rfl⟩ : ∃ k, i = k + 1 :=
    ⟨i - 1, (Nat.succ_pred_eq_of_pos h1i).symm⟩
  simp [positionAt, hsig]

/-- C9 (witness): on the constant series `[5, 5, 5]` with `lookback = 2` the
rolling std at index 1 is `0`; the theorem applied there. -/
theorem C9_witness :
    zAt ratSqrt [5, 5, 5] 2 1 = none ∧ signalAt ratSqrt [5, 5, 5] 2 1 1 = none ∧
      1 ≤ 1 ∧
      positionAt ratSqrt [5, 5, 5] 2 1 1 = positionAt ratSqrt [5, 5, 5] 2 1 0 :=
  C9_zero_std_no_signal ratSqrt [5, 5, 5] 2 1 1 (by decide)

/-! ### Prefix stability: every column entry at index `i` depends only on
`series[0..i]`.  These lemmas feed the no-lookahead half of C5. -/

theorem getElem?_congr_of_take_eq {xs ys : List ℚ} {k : ℕ}
    (h : xs.take k = ys.take k) {j : ℕ} (hj : j < k) : xs[j]? = ys[j]? := by
  rw [← List.getElem?_take_of_lt (l := xs) hj, ← List.getElem?_take_of_lt (l := ys) hj, h]

theorem take_congr_of_take_eq {xs ys : List ℚ} {k : ℕ}
    (h : xs.take k = ys.take k) {m : ℕ} (hm : m ≤ k) :
    xs.take m = ys.take m := by
  have h2 := congrArg (List.take m) h
  simpa [List.take_take, Nat.min_eq_left hm] using h2

theorem windowL_congr {xs ys : List ℚ} {i : ℕ} (w : ℕ)
    (h : xs.take (i + 1) = ys.take (i + 1)) {j : ℕ} (hj : j ≤ i) :
    windowL xs w j = windowL ys w j := by
  unfold windowL
  rw [take_congr_of_take_eq h (Nat.succ_le_succ hj)]

theorem meanAt_congr {xs ys : List ℚ} {i : ℕ} (w : ℕ)
    (h : xs.take (i + 1) = ys.take (i + 1)) (hx : i < xs.length)
    (hy : i < ys.length) {j : ℕ} (hj : j ≤ i) :
    meanAt xs w j = meanAt ys w j := by
  have hjx : j < xs.length := lt_of_le_of_lt hj hx
  have hjy : j < ys.length := lt_of_le_of_lt hj hy
  unfold meanAt
  rw [windowL_congr w h hj]
  exact if_congr (by simp [hjx, hjy]) rfl rfl

theorem varAt_congr {xs ys : List ℚ} {i : ℕ} (w : ℕ)
    (h : xs.take (i + 1) = ys.take (i + 1)) (hx : i < xs.length)
    (hy : i < ys.length) {j : ℕ} (hj : j ≤ i) :
    varAt xs w j = varAt ys w j := by
  have hjx : j < xs.length := lt_of_le_of_lt hj hx
  have hjy : j < ys.length := lt_of_le_of_lt hj hy
  unfold varAt
  rw [windowL_congr w h hj]
  exact if_congr (by simp [hjx, hjy]) rfl rfl

theorem zAt_congr (s : ℚ → ℚ) {xs ys : List ℚ} {i : ℕ} (w : ℕ)
    (h : xs.take (i + 1) = ys.take (i + 1)) (hx : i < xs.length)
    (hy : i < ys.length) {j : ℕ} (hj : j ≤ i) :
    zAt s xs w j = zAt s ys w j := by
  unfold zAt stdAt
  rw [meanAt_congr w h hx hy hj, varAt_congr w h hx hy hj,
    getElem?_congr_of_take_eq h (Nat.lt_succ_of_le hj)]

theorem zPrev_congr (s : ℚ → ℚ) {xs ys : List ℚ} {i : ℕ} (w : ℕ)
    (h : xs.take (i + 1) = ys.take (i + 1)) (hx : i < xs.length)
    (hy : i < ys.length) {j : ℕ} (hj : j ≤ i) :
    zPrev s xs w j = zPrev s ys w j := by
  unfold zPrev
  rcases Nat.eq_zero_or_pos j with rfl | hpos
  · rw [if_pos rfl, if_pos rfl]
  · rw [if_neg (Nat.pos_iff_ne_zero.mp hpos), if_neg (Nat.pos_iff_ne_zero.mp hpos),
      zAt_congr s w h hx hy (le_trans (Nat.sub_le j 1) hj)]

theorem signalAt_congr (s : ℚ → ℚ) {xs ys : List ℚ} {i : ℕ} (w : ℕ) (ez : ℚ)
    (h : xs.take (i + 1) = ys.take (i + 1)) (hx : i < xs.length)
    (hy : i < ys.length) {j : ℕ} (hj : j ≤ i) :
    signalAt s xs w ez j = signalAt s ys w ez j := by
  unfold signalAt
  rw [zAt_congr s w h hx hy hj, zPrev_congr s w h hx hy hj]

theorem positionAt_congr (s : ℚ → ℚ) {xs ys : List ℚ} {i : ℕ} (w : ℕ) (ez : ℚ)
    (h : xs.take (i + 1) = ys.take (i + 1)) (hx : i < xs.length)
    (hy : i < ys.length) {j : ℕ} (hj : j ≤ i) :
    positionAt s xs w ez j = positionAt s ys w ez j := by
  induction j with
  | zero =>
    simp only [positionAt]
    rw [signalAt_congr s w ez h hx hy (Nat.zero_le i)]
  | succ j ih =>
    simp only [positionAt]
    rw [signalAt_congr s w ez h hx hy hj, ih (le_of_lt (Nat.lt_of_succ_le hj))]

/-! ### C5: gross PnL formula and the no-lookahead invariant -/

/-- C5: for every index `i ≥ 1`,
`gross_pnl[i] = position[i-1] * (series[i] - series[i-1])`, `gross_pnl[0]` is
undefined (NaN), and `gross_pnl[i]` never depends on a `series[j]` with
`j > i`: any series agreeing with `xs` on indices `0..i` yields the same
`gross_pnl[i]`. -/
theorem C5_gross_pnl_no_lookahead (s : ℚ → ℚ) (xs ys : List ℚ) (w : ℕ)
    (ez : ℚ) (i : ℕ) (h1 : 1 ≤ i) (hx : i < xs.length) (hy : i < ys.length)
    (hpre : xs.take (i + 1) = ys.take (i + 1)) :
    grossAt s xs w ez i =
        some (positionAt s xs w ez (i - 1) * (xs.getD i 0 - xs.getD (i - 1) 0)) ∧
      grossAt s xs w ez 0 = none ∧
      grossAt s ys w ez i = grossAt s xs w ez i := by
  have hi : i ≠ 0 := Nat.one_le_iff_ne_zero.mp h1
  have hx1 : i - 1 < xs.length := lt_of_le_of_lt (Nat.sub_le i 1) hx
  refine ⟨?_, rfl, ?_⟩
  · rw [grossAt, pcAt, if_neg hi, if_neg hi,
      List.getElem?_eq_getElem hx, List.getElem?_eq_getElem hx1]
    simp [optMul, optSub, List.getD, List.getElem?_eq_getElem, hx, hx1]
  · rw [grossAt, grossAt, pcAt, pcAt, if_neg hi, if_neg hi, if_neg hi, if_neg hi,
      positionAt_congr s w ez hpre.symm hy hx (Nat.sub_le i 1),
      getElem?_congr_of_take_eq hpre.symm (Nat.lt_succ_of_le (le_refl i)),
      getElem?_congr_of_take_eq hpre.symm (Nat.lt_succ_of_le (Nat.sub_le i 1))]

/-- C5 (witness): the formula and the lookahead-independence evaluated at
index 4 of the 5-point series against its 7-point extension, which agrees on
indices `0..4` and has wildly different later values. -/
theorem C5_witness :
    grossAt ratSqrt qs5 3 1 4 =
        some (positionAt ratSqrt qs5 3 1 3 * (qs5.getD 4 0 - qs5.getD 3 0)) ∧
      grossAt ratSqrt qs5 3 1 0 = none ∧
      grossAt ratSqrt qs5ext 3 1 4 = grossAt ratSqrt qs5 3 1 4 :=
  C5_gross_pnl_no_lookahead ratSqrt qs5 qs5ext 3 1 4 (by decide) (by decide)
    (by decide) (by decide)

/-! ### C8: net PnL, cumulative PnL and total return -/

/-- At every index `i ≥ 1` inside the frame, the net PnL entry is defined,
with this explicit value. -/
theorem netAt_eq (s : ℚ → ℚ) (xs : List ℚ) (w : ℕ) (ez cpt : ℚ) {i : ℕ}
    (h1 : 1 ≤ i) (hx : i < xs.length) :
    netAt s xs w ez cpt i =
      some (positionAt s xs w ez (i - 1) * (xs.getD i 0 - xs.getD (i - 1) 0)
        - |positionAt s xs w ez i - positionAt s xs w ez (i - 1)| * cpt) := by
  have hi : i ≠ 0 := Nat.one_le_iff_ne_zero.mp h1
  have hx1 : i - 1 < xs.length := lt_of_le_of_lt (Nat.sub_le i 1) hx
  rw [netAt, grossAt, pcAt, costsAt, tradesAt, if_neg hi, if_neg hi, if_neg hi,
    List.getElem?_eq_getElem hx, List.getElem?_eq_getElem hx1]
  simp [optSub, optMul, List.getD_eq_getElem?_getD,
    List.getElem?_eq_getElem, hx, hx1]

/-- C8: `net_pnl[i] = gross_pnl[i] - cost[i]` at every index;
`cumulative_pnl[0] = net_pnl[0]` (both undefined); `cumulative_pnl[1] =
net_pnl[1]` — pandas `cumsum` skips the NaN at index 0 instead of
propagating it, which is where the claimed recurrence fails — the recurrence
`cumulative_pnl[i] = cumulative_pnl[i-1] + net_pnl[i]` holds from `i = 2`
on; and the reported total return is the last cumulative-PnL entry. -/
theorem C8_net_cum_total (s : ℚ → ℚ) (xs : List ℚ) (w : ℕ) (ez cpt : ℚ) :
    (∀ i, netAt s xs w ez cpt i =
        optSub (grossAt s xs w ez i) (costsAt s xs w ez cpt i)) ∧
      cumAt s xs w ez cpt 0 = netAt s xs w ez cpt 0 ∧
      (1 < xs.length → cumAt s xs w ez cpt 1 = netAt s xs w ez cpt 1) ∧
      (∀ i, 2 ≤ i → i < xs.length →
        cumAt s xs w ez cpt i =
          optAdd (cumAt s xs w ez cpt (i - 1)) (netAt s xs w ez cpt i)) ∧
      (0 < xs.length →
        (performanceSummary s (mkFrame s xs w ez cpt)).total_return =
          cumAt s xs w ez cpt (xs.length - 1)) := by
  have hnet0 : netAt s xs w ez cpt 0 = none := rfl
  refine ⟨fun i => rfl, rfl, ?_, ?_, ?_⟩
  · intro h
    have h1 := netAt_eq s xs w ez cpt (le_refl 1) h
    have hsum : sumNet s xs w ez cpt 1 =
        sumNet s xs w ez cpt 0 + (netAt s xs w ez cpt 1).getD 0 := rfl
    rw [cumAt, h1, Option.map_some', hsum]
    simp [sumNet, hnet0, h1]
  · intro i h2 hx
    obtain ⟨k, rfl⟩ : ∃ k, i = k + 1 := ⟨i - 1, by omega⟩
    have hk1 : 1 ≤ k := by omega
    have hkx : k < xs.length := by omega
    have hnk := netAt_eq s xs w ez cpt hk1 hkx
    have hnk1 := netAt_eq s xs w ez cpt (by omega : 1 ≤ k + 1) hx
    have hsum : sumNet s xs w ez cpt (k + 1) =
        sumNet s xs w ez cpt k + (netAt s xs w ez cpt (k + 1)).getD 0 := rfl
    rw [cumAt, cumAt, Nat.add_sub_cancel, hnk, hnk1]
    simp only [Option.map_some', optAdd, hsum, hnk1, Option.getD_some]
  · intro h
    obtain ⟨m, hm⟩ : ∃ m, xs.length = m + 1 := ⟨xs.length - 1, by omega⟩
    have hcol : (performanceSummary s (mkFrame s xs w ez cpt)).total_return =
        ((List.range xs.length).map (cumAt s xs w ez cpt)).getLast?.join := rfl
    rw [hcol, hm, List.range_succ, List.map_append]
    simp [List.getLast?_concat]

/-- C8 (counterexample): on the 5-point series the claimed recurrence fails
at `i = 1`: `cumulative_pnl[1]` is defined (pandas `cumsum` skips the NaN at
index 0) while `cumulative_pnl[0] + net_pnl[1]` is NaN, so they differ. -/
theorem C8_counterexample :
    cumAt ratSqrt qs5 3 1 (2/100) 1 ≠
      optAdd (cumAt ratSqrt qs5 3 1 (2/100) 0) (netAt ratSqrt qs5 3 1 (2/100) 1) := by
  decide

/-- C8 (witness): the amended statement evaluated on the 5-point series:
the defining identity at index 2, both NaN base cases, the recurrence at
index 2, and the total return at the last index. -/
theorem C8_witness :
    netAt ratSqrt qs5 3 1 (2/100) 2 =
        optSub (grossAt ratSqrt qs5 3 1 2) (costsAt ratSqrt qs5 3 1 (2/100) 2) ∧
      cumAt ratSqrt qs5 3 1 (2/100) 0 = netAt ratSqrt qs5 3 1 (2/100) 0 ∧
      cumAt ratSqrt qs5 3 1 (2/100) 1 = netAt ratSqrt qs5 3 1 (2/100) 1 ∧
      cumAt ratSqrt qs5 3 1 (2/100) 2 =
        optAdd (cumAt ratSqrt qs5 3 1 (2/100) 1) (netAt ratSqrt qs5 3 1 (2/100) 2) ∧
      (performanceSummary ratSqrt (mkFrame ratSqrt qs5 3 1 (2/100))).total_return =
        cumAt ratSqrt qs5 3 1 (2/100) 4 :=
  ⟨(C8_net_cum_total ratSqrt qs5 3 1 (2/100)).1 2,
   (C8_net_cum_total ratSqrt qs5 3 1 (2/100)).2.1,
   (C8_net_cum_total ratSqrt qs5 3 1 (2/100)).2.2.1 (by decide),
   (C8_net_cum_total ratSqrt qs5 3 1 (2/100)).2.2.2.1 2 (by decide) (by decide),
   (C8_net_cum_total ratSqrt qs5 3 1 (2/100)).2.2.2.2 (by decide)⟩

/-! ### C4: validator failure modes -/

theorem popVar_singleton (a : ℚ) : popVar [a] = some 0 := by
  norm_num [popVar]

theorem hurstOkB_eq_false {xs : List ℚ}
    (h : ∃ l ∈ hurstLags, tauPos (tauQuad xs l) = false) :
    hurstOkB xs = false := by
  rcases h with ⟨l, hl, hfalse⟩
  rw [Bool.eq_false_iff]
  intro hall
  rw [hurstOkB, List.all_eq_true] at hall
  have := hall (tauQuad xs l) (List.mem_map_of_mem _ hl)
  rw [hfalse] at this
  exact absurd this (by simp)

/-- C4: the code contains no `InsufficientDataError` path at all — no run
can surface that error, whatever the external stationarity call does — and
the Hurst computation does not return a flagged NaN on degenerate input:
whenever the series length is at most 100 or some `tau` is zero it raises
numpy's `LinAlgError` out of the unguarded `polyfit` call. -/
theorem C4_hurst_failure :
    (∀ xs : List ℚ,
      (xs.length ≤ 100 ∨ ∃ lag ∈ hurstLags, tauQuad xs lag = some 0) →
        calculate_hurst xs = Except.error PyError.numpyLinAlgError) ∧
      ∀ (adfOk : List ℚ → Bool) (s : ℚ → ℚ) (df : List (ℤ × ℚ)) (w : ℕ)
        (ez cpt : ℚ),
        runE adfOk s df w ez cpt ≠ Except.error PyError.insufficientDataError := by
  constructor
  · intro xs h
    suffices hok : hurstOkB xs = false by simp [calculate_hurst, hok]
    apply hurstOkB_eq_false
    rcases h with hlen | ⟨lag, hmem, heq⟩
    · by_cases hsm : xs.length ≤ 99
      · refine ⟨99, by decide, ?_⟩
        rw [tauQuad, lagDiffs, List.drop_eq_nil_of_le hsm]
        rfl
      · have h100 : xs.length = 100 := by omega
        refine ⟨99, by decide, ?_⟩
        have hd : (xs.drop 99).length = 1 := by rw [List.length_drop, h100]
        obtain ⟨a, ha⟩ := List.length_eq_one.mp hd
        obtain ⟨b, t, hbt⟩ : ∃ b t, xs = b :: t := by
          cases xs with
          | nil => simp at h100
          | cons b t => exact ⟨b, t, rfl⟩
        rw [tauQuad, lagDiffs, ha, hbt]
        simp [List.zipWith, popVar_singleton, tauPos]
    · exact ⟨lag, hmem, by rw [heq]; rfl⟩
  · intro adfOk s df w ez cpt
    by_cases hadf : adfOk (spreadOf df) = false
    · simp [runE, hadf]
    · by_cases hh : hurstOkB (spreadOf df) = true
      · simp [runE, calculate_hurst, hadf, hh]
      · simp [runE, calculate_hurst, hadf, hh]

/-- C4 (counterexample): on a 3-point series — far below any stationarity
threshold — the call fails inside the external `adfuller` with the external
library's own `ValueError`, not with an `InsufficientDataError`, which the
code never defines or raises. -/
theorem C4_counterexample :
    errOf (runE adfOkModel ratSqrt df3 30 2 (2/100)) =
        some PyError.statsmodelsValueError ∧
      PyError.statsmodelsValueError ≠ PyError.insufficientDataError := by
  decide

/-- C4 (witness): the Hurst failure theorem applied to a 3-point series
(length at most 100). -/
theorem C4_witness :
    calculate_hurst [1, 2, 3] = Except.error PyError.numpyLinAlgError :=
  C4_hurst_failure.1 [1, 2, 3] (Or.inl (by decide))

/-! ### C2: absence of parameter validation -/

/-- C2 (amended): `backtest_crush_spread` performs no parameter validation
and defines no `InvalidParameterError` — for any `lookback ≥ 1` (pandas
itself rejects `lookback < 1`) the call never surfaces such an error, and
whether it completes is decided solely by the two statistical diagnostics
(the external ADF call returning and every Hurst `tau` being defined and
positive), independently of `lookback`, `entry_z` and `cost_per_trade`; a
non-time-ordered input is silently sorted rather than rejected. -/
theorem C2_no_validation (adfOk : List ℚ → Bool) (s : ℚ → ℚ)
    (df : List (ℤ × ℚ)) (w : ℕ) (ez cpt : ℚ) (_hw : 1 ≤ w) :
    runE adfOk s df w ez cpt ≠ Except.error PyError.invalidParameterError ∧
      exceptOkB (runE adfOk s df w ez cpt) =
        (adfOk (spreadOf df) && hurstOkB (spreadOf df)) := by
  by_cases hadf : adfOk (spreadOf df) = false
  · simp [runE, hadf, exceptOkB]
  · have hadf2 : adfOk (spreadOf df) = true := by
      cases h : adfOk (spreadOf df)
      · exact absurd h hadf
      · rfl
    by_cases hh : hurstOkB (spreadOf df) = true
    · simp [runE, calculate_hurst, hadf, hadf2, hh, exceptOkB]
    · have hh2 : hurstOkB (spreadOf df) = false := by
        cases h : hurstOkB (spreadOf df)
        · rfl
        · exact absurd h hh
      simp [runE, calculate_hurst, hadf, hadf2, hh2, exceptOkB]

/-- C2 (counterexample): with `lookback = 1` (violating `lookback ≥ 2`),
`entry_z = 0` (violating `entry_z > 0`), `cost_per_trade = -1` (violating
`cost_per_trade ≥ 0`) and an input frame whose dates are in strictly
decreasing order (violating time-orderedness), the call still completes and
returns a frame — no `InvalidParameterError` is raised. -/
theorem C2_counterexample :
    exceptOkB (runE adfOkModel ratSqrt df101 1 0 (-1)) = true := by
  decide

/-- C2 (witness): the amended theorem at a concrete invocation with the
source defaults. -/
theorem C2_witness :
    runE adfOkModel ratSqrt df3 30 2 (2/100) ≠
        Except.error PyError.invalidParameterError ∧
      exceptOkB (runE adfOkModel ratSqrt df3 30 2 (2/100)) =
        (adfOkModel (spreadOf df3) && hurstOkB (spreadOf df3)) :=
  C2_no_validation adfOkModel ratSqrt df3 30 2 (2/100) (by decide)

/-! ### C3: what the function returns -/

/-- C3 (amended): every successful invocation returns exactly one object,
the full augmented frame (`return data`, source line 265); the performance
summary is computed and printed inside the call (lines 221-238) but is not
part of the returned value. -/
theorem C3_returns_frame_only (adfOk : List ℚ → Bool) (s : ℚ → ℚ)
    (df : List (ℤ × ℚ)) (w : ℕ) (ez cpt : ℚ) (r : ReturnVal)
    (h : runE adfOk s df w ez cpt = Except.ok r) :
    r = ReturnVal.frameOnly (mkFrame s (spreadOf df) w ez cpt) ∧
      r.hasSummaryB = false := by
  by_cases hadf : adfOk (spreadOf df) = false
  · simp [runE, hadf] at h
  · by_cases hh : hurstOkB (spreadOf df) = true
    · simp [runE, calculate_hurst, hadf, hh] at h
      exact ⟨h.symm, by rw [← h]; rfl⟩
    · simp [runE, calculate_hurst, hadf, hh] at h

/-- C3 (counterexample): a concrete successful invocation whose returned
object carries no summary component, refuting "returns both the frame and a
PerformanceSummary". -/
theorem C3_counterexample :
    okNoSummaryB (runE adfOkModel ratSqrt df101 1 0 (-1)) = true := by
  decide

/-- C3 (witness): the amended theorem applied at a concrete successful
invocation. -/
theorem C3_witness :
    ReturnVal.frameOnly (mkFrame ratSqrt (spreadOf df101) 1 0 (-1)) =
        ReturnVal.frameOnly (mkFrame ratSqrt (spreadOf df101) 1 0 (-1)) ∧
      (ReturnVal.frameOnly (mkFrame ratSqrt (spreadOf df101) 1 0 (-1))).hasSummaryB
        = false :=
  C3_returns_frame_only adfOkModel ratSqrt df101 1 0 (-1) _ (by rfl)

/-! ### C10: the input frame is not mutated -/

/-- C10: the caller's `df` object is identical before and after the call —
the body copies it (line 134) and applies the in-place sort and every column
write to the copy — and the returned frame's spread column is the sorted
copy's column, not a view of `df`. -/
theorem C10_input_not_mutated (adfOk : List ℚ → Bool) (s : ℚ → ℚ)
    (df : List (ℤ × ℚ)) (w : ℕ) (ez cpt : ℚ) :
    (runEnv adfOk s df w ez cpt).1 = df ∧
      (runEnv adfOk s df w ez cpt).2 = runE adfOk s df w ez cpt ∧
      (mkFrame s (spreadOf df) w ez cpt).spread = (sortByDate df).map Prod.snd :=
  ⟨rfl, rfl, rfl⟩

/-- C10 (witness): the preservation statement at a concrete invocation on
the unsorted 101-point frame. -/
theorem C10_witness :
    (runEnv adfOkModel ratSqrt df101 1 0 (-1)).1 = df101 ∧
      (runEnv adfOkModel ratSqrt df101 1 0 (-1)).2 =
        runE adfOkModel ratSqrt df101 1 0 (-1) ∧
      (mkFrame ratSqrt (spreadOf df101) 1 0 (-1)).spread =
        (sortByDate df101).map Prod.snd :=
  C10_input_not_mutated adfOkModel ratSqrt df101 1 0 (-1)

end SoybeanCrush
